import Mathlib

/-!
Shallow embedding of the SecondBrain (dubhack) pipeline orchestration
subsystem: the concept store (`src/dubhack/redis/concept_store.py`), the
concept extractor (`src/dubhack/services/concept_extractor.py`), the concept
populator (`src/dubhack/services/concept_populator.py`) and the orchestrator
(`src/dubhack/services/orchestrator.py`).

External collaborators (the LLM client, the document store, the PDF
compressor, the graph builder) are modelled as oracles: each call site is
represented by an `Except` value in an environment record describing the
outcome the collaborator produced at that call.  Python exceptions are
modelled by the inductive `ExcP`; a raising call returns `Except.error`.
Python dicts (insertion ordered) are modelled as association lists.
-/

namespace SecondBrain

/-- Python exceptions relevant to the pipeline: `botocore` `ClientError`
(carrying the `response["Error"]["Code"]` field and a detail message),
`ValueError`, `RuntimeError`, and any other exception type. -/
inductive ExcP where
  | clientError (code : String) (msg : String)
  | valueError (msg : String)
  | runtimeError (msg : String)
  | generic (msg : String)
deriving DecidableEq, Repr

/-- `str(exc)`.  For a botocore `ClientError` the rendering is
"An error occurred ({code}) when calling the ... operation: {msg}"; for the
plain exception types it is the carried message. -/
def ExcP.str : ExcP → String
  | .clientError code msg =>
      "An error occurred (" ++ code ++ ") when calling the operation: " ++ msg
  | .valueError msg => msg
  | .runtimeError msg => msg
  | .generic msg => msg

/-- `isinstance(exc, ValueError)`. -/
def ExcP.isValueError : ExcP → Bool
  | .valueError _ => true
  | _ => false

/-- Substring containment on strings, `pat in s` in Python. -/
def strContains (s pat : String) : Prop := pat.data <:+: s.data

instance (s pat : String) : Decidable (strContains s pat) :=
  inferInstanceAs (Decidable (pat.data <:+: s.data))

/-- A keyword-per-document mapping, Python `dict[str, list[str]]` with
insertion order, modelled as an association list without duplicate keys
(dict semantics are enforced by the insertion operation below). -/
abbrev ConceptMap := List (String × List String)

/-- Keys of a dict. -/
def keysOf (m : ConceptMap) : List String := m.map Prod.fst

/-- Python dict assignment `m[k] = v`: overwrite in place when the key is
present, append otherwise. -/
def dictInsert (m : ConceptMap) (k : String) (v : List String) : ConceptMap :=
  if k ∈ keysOf m then
    m.map (fun p => if p.1 = k then (k, v) else p)
  else
    m ++ [(k, v)]

/-- Python dict lookup `m.get(k)` returning the first (unique) binding. -/
def dictGet (m : ConceptMap) (k : String) : Option (List String) :=
  (m.find? (fun p => p.1 = k)).map Prod.snd

/-! ## Concept store (`concept_store.py`)

The Redis key space is modelled as an association list from key strings to
content strings; `r.set` upserts, `r.exists` tests membership. -/

/-- Redis key-value state. -/
abbrev Store := List (String × String)

/-- `r.exists(key)`. -/
def redisExists (s : Store) (key : String) : Bool := s.any (fun p => p.1 = key)

/-- `r.set(key, content)`: overwrite or create. -/
def redisSet (s : Store) (key content : String) : Store :=
  if redisExists s key then
    s.map (fun p => if p.1 = key then (key, content) else p)
  else
    s ++ [(key, content)]

/-- `r.get(key)`. -/
def redisGet (s : Store) (key : String) : Option String :=
  (s.find? (fun p => p.1 = key)).map Prod.snd

/-- The apostrophe character used in the duplicate-concept error message. -/
def apos : String := String.mk [Char.ofNat 39]

/-- `ConceptStore.create_concept`: raises `ValueError` when the key
`concept:{name}` already exists, otherwise sets it. -/
def create_concept (s : Store) (name content : String) : Except ExcP Store :=
  let key := "concept:" ++ name
  if redisExists s key then
    .error (.valueError ("Concept " ++ apos ++ name ++ apos ++ " already exists."))
  else
    .ok (redisSet s key content)

/-- `ConceptStore.update_concept`: overwrite or create (upsert). -/
def update_concept (s : Store) (name content : String) : Store :=
  redisSet s ("concept:" ++ name) content

/-- `ConceptStore.read_concept`. -/
def read_concept (s : Store) (name : String) : Option String :=
  redisGet s ("concept:" ++ name)

/-! ## Concept populator persist step (`concept_populator.py`)

`_populate_single` queries the LLM (oracle `llm`), persists the summary via
`ConceptStore.create_concept`, and records the completion.  Its exceptions
propagate out of `populate` (the future's `.result()` re-raises). -/

/-- `ConceptPopulator._record_completion`. -/
def record_completion (completed : List String) (concept : String) : List String :=
  if concept ∈ completed then completed else completed ++ [concept]

/-- `ConceptPopulator._populate_single`, returning the updated store and
completed list, or the exception it raises. `llm` is the outcome of the
`query_llm` call for this concept. -/
def populate_single (llm : Except ExcP String) (s : Store)
    (completed : List String) (concept : String) :
    Except ExcP (Store × List String) := do
  let summary ← llm
  let s' ← create_concept s concept summary
  return (s', record_completion completed concept)

/-! ## Concept extractor (`concept_extractor.py`)

The reply parser works on the payload produced by `_load_json` (some decoded
JSON value, or `{}` when every decoding attempt fails); we model the payload
as an arbitrary `JsonValue` and quantify over it. -/

/-- A decoded JSON value (Python object produced by `json.loads`). -/
inductive JsonValue where
  | null
  | bool (b : Bool)
  | num (n : Int)
  | str (s : String)
  | arr (xs : List JsonValue)
  | obj (fields : List (String × JsonValue))
deriving Repr

/-- Python `str(x)` for a decoded JSON value (the exact rendering of
non-string values is immaterial to the parser invariants). -/
def pyStr : JsonValue → String
  | .null => "None"
  | .bool true => "True"
  | .bool false => "False"
  | .num n => toString n
  | .str s => s
  | .arr _ => "[...]"
  | .obj _ => "\x7b...\x7d"

/-- Python iteration `for x in v`: a list iterates its elements, a string its
characters (each a one-character string), a dict its keys; other values raise
`TypeError`. -/
def pyIter : JsonValue → Except ExcP (List JsonValue)
  | .arr xs => .ok xs
  | .str s => .ok (s.data.map (fun c => .str (String.mk [c])))
  | .obj fields => .ok (fields.map (fun p => .str p.1))
  | _ => .error (.generic "TypeError: object is not iterable")

/-- `payload.get("keywords", [])` when the payload is a dict, the payload
itself when it is a list, `[]` otherwise (lines 106-111). -/
def keywordsPayload : JsonValue → JsonValue
  | .obj fields => ((fields.find? (fun p => p.1 = "keywords")).map Prod.snd).getD (.arr [])
  | .arr xs => .arr xs
  | _ => .arr []

/-- Python `str.strip()`: drop leading and trailing whitespace. -/
def pyStrip (s : String) : String :=
  String.mk (((s.data.dropWhile Char.isWhitespace).reverse.dropWhile
    Char.isWhitespace).reverse)

/-- The accumulation loop of `_parse_keywords` (lines 113-119): coerce each
item to `str`, strip it, and append it when non-empty and not yet present. -/
def processKeywords : List JsonValue → List String → List String
  | [], acc => acc
  | x :: xs, acc =>
      let s := pyStrip (pyStr x)
      if s ≠ "" ∧ s ∉ acc then processKeywords xs (acc ++ [s])
      else processKeywords xs acc

/-- `ConceptExtractor._parse_keywords` applied to a decoded payload: raises
`TypeError` when the keywords value is not iterable, otherwise returns the
processed list truncated to 10 entries. -/
def parse_keywords (payload : JsonValue) : Except ExcP (List String) := do
  let items ← pyIter (keywordsPayload payload)
  return (processKeywords items []).take 10

/-! ### `ConceptExtractor.extract`

The extractor's only state is its progress dict `_progress`.  The per-document
LLM-call-plus-parse `_extract_for_document` is an oracle `outcome : String →
Except ExcP (List String)`; `order` is the completion order that
`as_completed` yields the futures in (a permutation of the submitted list).
`extract` returns the new progress state and the returned value or raised
exception. -/

/-- One `as_completed` loop iteration (lines 77-87): on success record the
keywords, on failure record an empty list; both go through dict assignment
on the progress accumulator. -/
def extractStep (outcome : String → Except ExcP (List String))
    (acc : ConceptMap) (doc : String) : ConceptMap :=
  match outcome doc with
  | .ok ks => dictInsert acc doc ks
  | .error _ => dictInsert acc doc []

/-- `ConceptExtractor.extract` (lines 55-89), threading the progress state
`prog`.  Empty input returns `{}` before clearing progress; a single document
runs inline with no exception handler; multiple documents fan out and record
per-document failures as empty lists, returning the final progress. -/
def extract (outcome : String → Except ExcP (List String)) (order : List String)
    (prog : ConceptMap) (paths : List String) :
    ConceptMap × Except ExcP ConceptMap :=
  match paths with
  | [] => (prog, .ok [])
  | [d] =>
      match outcome d with
      | .ok ks => (dictInsert [] d ks, .ok (dictInsert [] d ks))
      | .error e => ([], .error e)
  | _ =>
      let final := order.foldl (extractStep outcome) []
      (final, .ok final)

/-! ## Orchestrator (`orchestrator.py`) -/

/-- `PipelineState` (a `str` enum). -/
inductive PipelineState where
  | starting
  | compressing
  | parsing
  | populating
  | graphing
  | done
  | error
deriving DecidableEq, Repr

/-- The `.value` string of each pipeline state. -/
def PipelineState.value : PipelineState → String
  | .starting => "starting"
  | .compressing => "compressing"
  | .parsing => "parsing"
  | .populating => "populating"
  | .graphing => "graphing"
  | .done => "done"
  | .error => "error"

/-- `ForceGraphData`: the graph object is opaque to the orchestrator; only
its identity matters here. -/
structure ForceGraphData where
  id : Nat
deriving DecidableEq, Repr

/-- The collaborators the orchestrator was constructed with
(`None` collaborators are absent; `compressorAvailable` additionally folds in
`pdf_compressor.available`). -/
structure Config where
  compressorAvailable : Bool
  populatorPresent : Bool
  graphPresent : Bool
  storePresent : Bool
deriving DecidableEq, Repr

/-- The orchestrator's mutable fields together with the state its extractor
and populator collaborators hold (their progress accumulators). -/
structure OrchState where
  state : PipelineState
  lastConcepts : ConceptMap
  lastGraph : Option ForceGraphData
  errorMessage : Option String
  lastCompressed : List String
  extractorProgress : ConceptMap
  populatorCompleted : List String
deriving DecidableEq, Repr

/-- `Orchestrator.__init__` composed with `ConceptExtractor.__init__` and
`ConceptPopulator.__init__`: state starts at `DONE`, every record empty. -/
def initOrchState : OrchState :=
  { state := .done
    lastConcepts := []
    lastGraph := none
    errorMessage := none
    lastCompressed := []
    extractorProgress := []
    populatorCompleted := [] }

/-- `Orchestrator.current_state`. -/
def current_state (st : OrchState) : String := st.state.value

/-- Outcomes of every collaborator call a single `run()` can make, plus the
cancellation-flag observations at the three cooperative check points.
`extractProgressAtFailure` is the extractor's accumulator at the moment
`extract` raised; `populateCompleted` is the populator's completed list when
`populate` returned or raised. -/
structure Env where
  docs1 : Except ExcP (List String)
  compress : Except ExcP (List String)
  docs2 : Except ExcP (List String)
  oversized : Except ExcP (List String)
  storeReset : Except ExcP Unit
  extractOutcome : Except ExcP ConceptMap
  extractProgressAtFailure : ConceptMap
  populateOutcome : Except ExcP Unit
  populateCompleted : List String
  graphOutcome : Except ExcP ForceGraphData
  cancel1 : Bool
  cancel2 : Bool
  cancel3 : Bool
deriving Repr

/-- Collaborator calls `run()` makes, in order, for tracking which stages a
given execution reached. -/
inductive Event where
  | compressE
  | resetStoreE
  | extractE
  | populateE
  | graphE
deriving DecidableEq, Repr

/-- The outcome of one `run()`: the post-state, the returned concept map or
raised exception, and the trace of collaborator calls made. -/
structure RunOut where
  st : OrchState
  res : Except ExcP ConceptMap
  trace : List Event
deriving Repr

/-- Split a character list on the path separator. -/
def splitSlash : List Char → List (List Char)
  | [] => [[]]
  | c :: cs =>
      if c = Char.ofNat 47 then [] :: splitSlash cs
      else
        match splitSlash cs with
        | [] => [[c]]
        | g :: gs => (c :: g) :: gs

/-- `Path(path).name`: the final non-empty path component. -/
def pathName (p : String) : String :=
  String.mk (((splitSlash p.data).filter (fun s => s ≠ [])).getLastD [])

/-- `", ".join(xs)`. -/
def joinComma : List String → String
  | [] => ""
  | [x] => x
  | x :: xs => x ++ ", " ++ joinComma xs

/-- `Orchestrator._format_oversized_error`. -/
def format_oversized_error (documents : List String) : String :=
  "One or more documents exceed the 4.5 MB limit for analysis: " ++
    joinComma (documents.map pathName) ++
    ". Please remove or reduce these files and try again."

/-- `Orchestrator._is_throttling_error`: a `ClientError` is throttling when
its error code is one of three codes; any other exception is throttling when
its string rendering contains one of four marker substrings. -/
def is_throttling_error : ExcP → Bool
  | .clientError code _ =>
      code = "ThrottlingException" ∨ code = "TooManyRequestsException" ∨
        code = "LimitExceededException"
  | e =>
      let message := e.str
      decide (strContains message "ThrottlingException") ||
      decide (strContains message "TooManyRequests") ||
      decide (strContains message "Rate exceeded") ||
      decide (strContains message "SlowDown")

/-- The keyword set `{kw for kws in concepts.values() for kw in kws}` is
non-empty exactly when this flattening is. -/
def flattenKeywords (m : ConceptMap) : List String :=
  (m.map Prod.snd).flatten

/-- The combined condition under which `run` calls `populate` (lines
136-138): a populator is configured, the document list is non-empty and the
keyword set is non-empty. -/
def popCondB (cfg : Config) (documents : List String) (m : ConceptMap) : Bool :=
  cfg.populatorPresent && !documents.isEmpty && !(flattenKeywords m).isEmpty

/-- The `finally` block (lines 166-168): unless already `ERROR`, end in
`DONE`. -/
def runFinally (o : RunOut) : RunOut :=
  if o.st.state = .error then o
  else { o with st := { o.st with state := .done } }

/-- The `except` handler (lines 156-165): a throttling exception records the
message, captures extraction progress and returns it; any other exception
records the message, moves to `ERROR` and re-raises.  Both paths then pass
through the `finally` block. -/
def runExcept (st : OrchState) (e : ExcP) (tr : List Event) : RunOut :=
  if is_throttling_error e then
    runFinally
      { st := { st with errorMessage := some e.str, lastConcepts := st.extractorProgress }
        res := .ok st.extractorProgress
        trace := tr }
  else
    runFinally
      { st := { st with errorMessage := some e.str, state := .error }
        res := .error e
        trace := tr }

/-- Lines 144-155 of `run()`: the graphing stage, the third cancellation
check and the successful completion (`m` is the map `extract` returned). -/
def runGraph (cfg : Config) (env : Env) (st : OrchState) (m : ConceptMap)
    (tr : List Event) : RunOut :=
  let st := { st with state := .graphing }
  if cfg.graphPresent then
    let tr := tr ++ [Event.graphE]
    match env.graphOutcome with
    | .error e => runExcept st e tr
    | .ok g =>
        let st := { st with lastGraph := some g }
        if env.cancel3 then
          runFinally { st := { st with lastConcepts := m }, res := .ok [], trace := tr }
        else
          runFinally
            { st := { st with lastConcepts := m, state := .done }, res := .ok m, trace := tr }
  else
    let st := { st with lastGraph := none }
    if env.cancel3 then
      runFinally { st := { st with lastConcepts := m }, res := .ok [], trace := tr }
    else
      runFinally
        { st := { st with lastConcepts := m, state := .done }, res := .ok m, trace := tr }

/-- The `try` body of `run()` (lines 129-155): extraction, the first
cancellation check, population, the second check, graphing, the third check,
then success. -/
def runTry (cfg : Config) (env : Env) (st : OrchState) (documents : List String)
    (tr : List Event) : RunOut :=
  let tr := tr ++ [Event.extractE]
  match env.extractOutcome with
  | .error e =>
      runExcept { st with extractorProgress := env.extractProgressAtFailure } e tr
  | .ok m =>
      let st := { st with extractorProgress := m }
      if env.cancel1 then
        runFinally { st := { st with lastConcepts := m }, res := .ok [], trace := tr }
      else
        let st := { st with state := .populating }
        if popCondB cfg documents m then
          let tr := tr ++ [Event.populateE]
          let st := { st with populatorCompleted := env.populateCompleted }
          match env.populateOutcome with
          | .error e => runExcept st e tr
          | .ok _ =>
              if env.cancel2 then
                runFinally { st := { st with lastConcepts := m }, res := .ok [], trace := tr }
              else runGraph cfg env st m tr
        else runGraph cfg env st m tr

/-- Lines 117-127: the `PARSING` transition, the oversized-document
validation, and the concept-store reset, then the guarded region.  A raise
from the oversized query or the store reset is not guarded by any handler. -/
def runPost (cfg : Config) (env : Env) (st : OrchState) (documents : List String)
    (tr : List Event) : RunOut :=
  let st := { st with state := .parsing }
  match env.oversized with
  | .error e => { st := st, res := .error e, trace := tr }
  | .ok oversizedDocs =>
      if oversizedDocs.isEmpty then
        if cfg.storePresent then
          match env.storeReset with
          | .error e => { st := st, res := .error e, trace := tr ++ [Event.resetStoreE] }
          | .ok _ => runTry cfg env st documents (tr ++ [Event.resetStoreE])
        else runTry cfg env st documents tr
      else
        let message := format_oversized_error oversizedDocs
        { st := { st with errorMessage := some message, state := .error }
          res := .error (.valueError message)
          trace := tr }

/-- `Orchestrator.run` (lines 91-168): clear the run record, transition to
`COMPRESSING`, fetch documents, optionally compress and re-fetch, then the
validation phase and the guarded pipeline.  Raises from `get_documents` are
not guarded by any handler. -/
def run (cfg : Config) (env : Env) (st0 : OrchState) : RunOut :=
  let st := { st0 with lastConcepts := [], lastGraph := none, errorMessage := none,
                       lastCompressed := [], state := PipelineState.compressing }
  match env.docs1 with
  | .error e => { st := st, res := .error e, trace := [] }
  | .ok docs =>
      if cfg.compressorAvailable then
        let tr := [Event.compressE]
        match env.compress with
        | .error e =>
            let msg := if e.isValueError then e.str else "PDF compression failed: " ++ e.str
            { st := { st with errorMessage := some msg, state := .error }
              res := .error e
              trace := tr }
        | .ok compressedDocs =>
            let st := { st with lastCompressed := compressedDocs }
            match env.docs2 with
            | .error e => { st := st, res := .error e, trace := tr }
            | .ok docsAfter => runPost cfg env st docsAfter tr
      else runPost cfg env st docs []

/-- `Orchestrator.cancel` only sets the cancellation event; in this model the
event's observations are the `cancel1`/`cancel2`/`cancel3` fields of `Env`. -/
def cancelSetsFlag : Bool := true

/-- `Orchestrator.reset` (lines 189-206): raise `RuntimeError` unless the
state's string value is one of the three idle values; otherwise clear every
record, clear both collaborators' progress (the populator's only when one is
present), and move to `STARTING`. -/
def reset (cfg : Config) (st : OrchState) : OrchState × Except ExcP Unit :=
  if current_state st = "done" ∨ current_state st = "error" ∨
      current_state st = "starting" then
    ({ state := .starting
       lastConcepts := []
       lastGraph := none
       errorMessage := none
       lastCompressed := []
       extractorProgress := []
       populatorCompleted := if cfg.populatorPresent then [] else st.populatorCompleted },
     .ok ())
  else
    (st, .error (.runtimeError "Cannot reset while pipeline is running"))

/-! ## Execution-path predicates

These describe, over an `Env`, which control path `run` takes through its
pre-extraction phase and which exception (if any) the guarded `try` region
raises.  They mirror the branching of `run`/`runPost`/`runTry` above. -/

/-- The documents value `run` carries into the guarded region when the
validation phase succeeds (`none` when some pre-extraction call raises or the
oversized validation fails). -/
def postDocs (cfg : Config) (env : Env) (docs : List String) : Option (List String) :=
  match env.oversized with
  | .error _ => none
  | .ok l =>
      if l.isEmpty then
        if cfg.storePresent then
          match env.storeReset with
          | .error _ => none
          | .ok _ => some docs
        else some docs
      else none

/-- As `postDocs`, starting from the top of `run`. -/
def preDocs (cfg : Config) (env : Env) : Option (List String) :=
  match env.docs1 with
  | .error _ => none
  | .ok docs =>
      if cfg.compressorAvailable then
        match env.compress with
        | .error _ => none
        | .ok _ =>
            match env.docs2 with
            | .error _ => none
            | .ok docsAfter => postDocs cfg env docsAfter
      else postDocs cfg env docs

/-- The `lastCompressed` record when the guarded region is reached. -/
def compressedVal (cfg : Config) (env : Env) : List String :=
  if cfg.compressorAvailable then
    match env.compress with
    | .ok c => c
    | .error _ => []
  else []

/-- The orchestrator state at entry to the guarded region. -/
def mkTrySt (cfg : Config) (env : Env) (st0 : OrchState) : OrchState :=
  { st0 with lastConcepts := [], lastGraph := none, errorMessage := none,
             lastCompressed := compressedVal cfg env, state := .parsing }

/-- The collaborator-call trace accumulated before the guarded region. -/
def preTrace (cfg : Config) : List Event :=
  (if cfg.compressorAvailable then [Event.compressE] else []) ++
    (if cfg.storePresent then [Event.resetStoreE] else [])

/-- True when the validation phase (oversized query, store reset) raises an
exception that no handler guards. -/
def uncaughtPostRaise (cfg : Config) (env : Env) : Bool :=
  match env.oversized with
  | .error _ => true
  | .ok l =>
      l.isEmpty && cfg.storePresent &&
        (match env.storeReset with
         | .error _ => true
         | .ok _ => false)

/-- True when some pre-extraction call of `run` (document fetch, post
compression re-fetch, oversized query, store reset) raises an exception that
no handler guards — the paths on which `run` re-raises without any state
bookkeeping. -/
def uncaughtPreRaise (cfg : Config) (env : Env) : Bool :=
  match env.docs1 with
  | .error _ => true
  | .ok _ =>
      if cfg.compressorAvailable then
        match env.compress with
        | .error _ => false
        | .ok _ =>
            match env.docs2 with
            | .error _ => true
            | .ok _ => uncaughtPostRaise cfg env
      else uncaughtPostRaise cfg env

/-- The guarded region raises exception `e`: either extraction raised it, or
(extraction returned and no cancellation was observed) population raised it,
or (population completed or was skipped) the graph builder raised it. -/
def RaisesInTry (cfg : Config) (env : Env) (documents : List String) (e : ExcP) : Prop :=
  env.extractOutcome = .error e ∨
    ∃ m, env.extractOutcome = .ok m ∧ env.cancel1 = false ∧
      ((popCondB cfg documents m = true ∧ env.populateOutcome = .error e) ∨
        ((popCondB cfg documents m = true →
            env.populateOutcome = .ok () ∧ env.cancel2 = false) ∧
          cfg.graphPresent = true ∧ env.graphOutcome = .error e))

/-! ## Helper lemmas: dict semantics -/

theorem keysOf_dictInsert (m : ConceptMap) (k : String) (v : List String) :
    keysOf (dictInsert m k v) =
      if k ∈ keysOf m then keysOf m else keysOf m ++ [k] := by
  unfold dictInsert
  split
  · next h =>
    show keysOf (List.map _ m) = keysOf m
    unfold keysOf
    rw [List.map_map]
    apply List.map_congr_left
    intro p _
    by_cases hp : p.1 = k
    · simp [Function.comp, hp]
    · simp [Function.comp, hp]
  · next h =>
    simp [h, keysOf]

theorem mem_keysOf_dictInsert (m : ConceptMap) (k d : String) (v : List String) :
    d ∈ keysOf (dictInsert m k v) ↔ d ∈ keysOf m ∨ d = k := by
  rw [keysOf_dictInsert]
  split
  · next h =>
    constructor
    · exact Or.inl
    · rintro (hd | rfl)
      · exact hd
      · exact h
  · simp

theorem nodup_keysOf_dictInsert (m : ConceptMap) (k : String) (v : List String)
    (h : (keysOf m).Nodup) : (keysOf (dictInsert m k v)).Nodup := by
  rw [keysOf_dictInsert]
  split
  · exact h
  · next hk => simp [List.nodup_append, h, hk]

theorem mem_keysOf_extractStep (outcome : String → Except ExcP (List String))
    (acc : ConceptMap) (a d : String) :
    d ∈ keysOf (extractStep outcome acc a) ↔ d ∈ keysOf acc ∨ d = a := by
  unfold extractStep
  cases outcome a <;> exact mem_keysOf_dictInsert ..

theorem nodup_keysOf_extractStep (outcome : String → Except ExcP (List String))
    (acc : ConceptMap) (a : String) (h : (keysOf acc).Nodup) :
    (keysOf (extractStep outcome acc a)).Nodup := by
  unfold extractStep
  cases outcome a <;> exact nodup_keysOf_dictInsert _ _ _ h

theorem mem_keysOf_foldl_extractStep (outcome : String → Except ExcP (List String))
    (order : List String) (m : ConceptMap) (d : String) :
    d ∈ keysOf (order.foldl (extractStep outcome) m) ↔ d ∈ keysOf m ∨ d ∈ order := by
  induction order generalizing m with
  | nil => simp
  | cons a rest ih =>
      rw [List.foldl_cons, ih, mem_keysOf_extractStep]
      simp only [List.mem_cons]
      tauto

theorem nodup_keysOf_foldl_extractStep (outcome : String → Except ExcP (List String))
    (order : List String) (m : ConceptMap) (h : (keysOf m).Nodup) :
    (keysOf (order.foldl (extractStep outcome) m)).Nodup := by
  induction order generalizing m with
  | nil => exact h
  | cons a rest ih =>
      rw [List.foldl_cons]
      exact ih _ (nodup_keysOf_extractStep _ _ _ h)

/-! ## Helper lemmas: the keyword-processing loop -/

theorem processKeywords_props (xs : List JsonValue) (acc : List String)
    (hnd : acc.Nodup) (hne : ∀ k ∈ acc, k ≠ "") :
    (processKeywords xs acc).Nodup ∧ (∀ k ∈ processKeywords xs acc, k ≠ "") ∧
      ∃ extra, processKeywords xs acc = acc ++ extra ∧
        extra.Sublist (xs.map (fun x => pyStrip (pyStr x))) := by
  induction xs generalizing acc with
  | nil =>
      refine ⟨hnd, hne, [], by simp [processKeywords], List.nil_sublist _⟩
  | cons x rest ih =>
      show (processKeywords (x :: rest) acc).Nodup ∧ _
      unfold processKeywords
      by_cases hc : pyStrip (pyStr x) ≠ "" ∧ pyStrip (pyStr x) ∉ acc
      · rw [if_pos hc]
        have hnd' : (acc ++ [pyStrip (pyStr x)]).Nodup := by
          simp [List.nodup_append, hnd, hc.2]
        have hne' : ∀ k ∈ acc ++ [pyStrip (pyStr x)], k ≠ "" := by
          intro k hk
          rcases List.mem_append.mp hk with hk | hk
          · exact hne k hk
          · simp only [List.mem_singleton] at hk
            subst hk
            exact hc.1
        obtain ⟨h1, h2, extra, heq, hsub⟩ := ih (acc ++ [pyStrip (pyStr x)]) hnd' hne'
        refine ⟨h1, h2, pyStrip (pyStr x) :: extra, ?_, ?_⟩
        · rw [heq, List.append_assoc]
          rfl
        · simpa using List.Sublist.cons₂ (pyStrip (pyStr x)) hsub
      · rw [if_neg hc]
        obtain ⟨h1, h2, extra, heq, hsub⟩ := ih acc hnd hne
        refine ⟨h1, h2, extra, heq, ?_⟩
        simpa using List.Sublist.cons (pyStrip (pyStr x)) hsub

/-! ## Helper lemmas: orchestrator control flow -/

theorem runFinally_state (o : RunOut) :
    (runFinally o).st.state = .done ∨ (runFinally o).st.state = .error := by
  unfold runFinally
  split
  · next h => exact Or.inr h
  · exact Or.inl rfl

theorem runExcept_state (st : OrchState) (e : ExcP) (tr : List Event) :
    (runExcept st e tr).st.state = .done ∨ (runExcept st e tr).st.state = .error := by
  unfold runExcept
  split <;> exact runFinally_state _

theorem runGraph_state (cfg : Config) (env : Env) (st : OrchState) (m : ConceptMap)
    (tr : List Event) :
    (runGraph cfg env st m tr).st.state = .done ∨
      (runGraph cfg env st m tr).st.state = .error := by
  unfold runGraph
  dsimp only
  repeat' split
  all_goals first
    | exact runExcept_state ..
    | exact runFinally_state _

theorem runTry_state (cfg : Config) (env : Env) (st : OrchState)
    (documents : List String) (tr : List Event) :
    (runTry cfg env st documents tr).st.state = .done ∨
      (runTry cfg env st documents tr).st.state = .error := by
  unfold runTry
  dsimp only
  repeat' split
  all_goals first
    | exact runExcept_state ..
    | exact runFinally_state _
    | exact runGraph_state ..

theorem postDocs_some (cfg : Config) (env : Env) (docs docsB : List String)
    (h : postDocs cfg env docs = some docsB) : docsB = docs := by
  unfold postDocs at h
  split at h
  · exact absurd h (by simp)
  · split at h
    · split at h
      · split at h
        · exact absurd h (by simp)
        · simpa using h.symm
      · simpa using h.symm
    · exact absurd h (by simp)

theorem runPost_eq (cfg : Config) (env : Env) (st : OrchState) (docs : List String)
    (tr : List Event) (h : postDocs cfg env docs = some docs) :
    runPost cfg env st docs tr =
      runTry cfg env { st with state := .parsing } docs
        (tr ++ if cfg.storePresent then [Event.resetStoreE] else []) := by
  unfold postDocs at h
  unfold runPost
  dsimp only
  cases h4 : env.oversized with
  | error e => rw [h4] at h; exact absurd h (by simp)
  | ok l =>
      rw [h4] at h
      dsimp only at h ⊢
      by_cases h5 : l.isEmpty
      · rw [if_pos h5] at h ⊢
        by_cases h6 : cfg.storePresent
        · rw [if_pos h6] at h
          simp only [h6, if_pos] at h ⊢
          cases h7 : env.storeReset with
          | error e => rw [h7] at h; exact absurd h (by simp)
          | ok u => rfl
        · rw [if_neg h6] at h
          simp [h6]
      · rw [if_neg h5] at h
        exact absurd h (by simp)

/-- When the pre-extraction phase succeeds with documents `docs`, `run` is
the guarded region started from the corresponding entry state and trace. -/
theorem run_eq_of_preDocs (cfg : Config) (env : Env) (st0 : OrchState)
    (docs : List String) (h : preDocs cfg env = some docs) :
    run cfg env st0 = runTry cfg env (mkTrySt cfg env st0) docs (preTrace cfg) := by
  unfold preDocs at h
  unfold run mkTrySt compressedVal preTrace
  cases h1 : env.docs1 with
  | error e => rw [h1] at h; exact absurd h (by simp)
  | ok d1 =>
      rw [h1] at h
      dsimp only at h ⊢
      by_cases hc : cfg.compressorAvailable
      · rw [if_pos hc] at h
        simp only [hc, if_pos] at h ⊢
        cases h2 : env.compress with
        | error e => rw [h2] at h; exact absurd h (by simp)
        | ok c =>
            rw [h2] at h
            dsimp only at h ⊢
            cases h3 : env.docs2 with
            | error e => rw [h3] at h; exact absurd h (by simp)
            | ok d2 =>
                rw [h3] at h
                dsimp only at h ⊢
                have hd : docs = d2 := postDocs_some cfg env d2 docs h
                subst hd
                rw [runPost_eq cfg env _ docs _ h]
      · rw [if_neg hc] at h
        simp only [hc, if_neg, Bool.false_eq_true, if_false] at h ⊢
        have hd : docs = d1 := postDocs_some cfg env d1 docs h
        subst hd
        rw [runPost_eq cfg env _ docs _ h]

/-! ## Claim C1: the populator's persist step -/

/-- C1 (counterexample): with an entry `concept:A` already in the store,
`_populate_single` does not overwrite it — `create_concept` raises
`ValueError` (strict-create), so the persist step is not last-writer-wins. -/
theorem populate_single_existing_entry_raises :
    populate_single (.ok "new summary") [("concept:A", "old")] [] "A" =
      .error (.valueError ("Concept " ++ apos ++ "A" ++ apos ++ " already exists.")) := by
  rfl

/-- C1 (amended): the persist step of `_populate_single` uses the store's
strict-create operation: when no entry with the concept's key exists it
writes the summary and records the completion, and when such an entry exists
it raises `ValueError` instead of overwriting (the populate stage then
re-raises, aborting). -/
theorem populate_single_strict_create (s : Store) (completed : List String)
    (name summary : String) :
    (redisExists s ("concept:" ++ name) = false →
      populate_single (.ok summary) s completed name =
        .ok (s ++ [("concept:" ++ name, summary)], record_completion completed name)) ∧
    (redisExists s ("concept:" ++ name) = true →
      populate_single (.ok summary) s completed name =
        .error (.valueError ("Concept " ++ apos ++ name ++ apos ++ " already exists."))) := by
  constructor
  · intro h
    unfold populate_single create_concept redisSet
    dsimp only
    rw [h]
    rfl
  · intro h
    unfold populate_single create_concept
    dsimp only
    rw [h]
    rfl

/-- C1 (witness): the amended theorem applied at a concrete store. -/
theorem populate_single_strict_create_witness :
    populate_single (.ok "sum") [] [] "B" =
      .ok ([("concept:B", "sum")], ["B"]) ∧
    populate_single (.ok "sum") [("concept:B", "old")] [] "B" =
      .error (.valueError ("Concept " ++ apos ++ "B" ++ apos ++ " already exists.")) :=
  ⟨(populate_single_strict_create [] [] "B" "sum").1 (by decide),
   (populate_single_strict_create [("concept:B", "old")] [] "B" "sum").2 (by decide)⟩

/-! ## Claim C5: reset -/

/-- C5: `reset` raises a "running" `RuntimeError` and changes nothing when
the state is not `Done`, `Error` or `Starting`; in those three states it
clears every run record and both collaborators' progress (the populator's
when one is present) and moves the state to `Starting`. -/
theorem reset_behavior (cfg : Config) (st : OrchState) :
    ((st.state ≠ .done ∧ st.state ≠ .error ∧ st.state ≠ .starting) →
      reset cfg st =
        (st, .error (.runtimeError "Cannot reset while pipeline is running"))) ∧
    ((st.state = .done ∨ st.state = .error ∨ st.state = .starting) →
      reset cfg st =
        ({ state := .starting, lastConcepts := [], lastGraph := none,
           errorMessage := none, lastCompressed := [], extractorProgress := [],
           populatorCompleted :=
             if cfg.populatorPresent then [] else st.populatorCompleted },
         .ok ())) := by
  constructor
  · intro hno
    obtain ⟨h1, h2, h3⟩ := hno
    unfold reset current_state
    cases hs : st.state with
    | done => exact absurd hs h1
    | error => exact absurd hs h2
    | starting => exact absurd hs h3
    | compressing => rw [if_neg (by decide)]
    | parsing => rw [if_neg (by decide)]
    | populating => rw [if_neg (by decide)]
    | graphing => rw [if_neg (by decide)]
  · intro h
    unfold reset current_state
    rw [if_pos]
    rcases h with h | h | h <;> rw [h] <;> simp [PipelineState.value]

/-- C5 (witness): `reset` while `Populating` fails and leaves everything
unchanged; `reset` while `Done` succeeds and moves to `Starting`. -/
theorem reset_behavior_witness :
    reset ⟨false, true, false, false⟩ { initOrchState with state := .populating } =
      ({ initOrchState with state := .populating },
        .error (.runtimeError "Cannot reset while pipeline is running")) ∧
    reset ⟨false, true, false, false⟩ initOrchState =
      ({ state := .starting, lastConcepts := [], lastGraph := none,
         errorMessage := none, lastCompressed := [], extractorProgress := [],
         populatorCompleted := [] }, .ok ()) := by
  constructor
  · exact (reset_behavior ⟨false, true, false, false⟩
      { initOrchState with state := .populating }).1 (by refine ⟨?_, ?_, ?_⟩ <;> decide)
  · have := (reset_behavior ⟨false, true, false, false⟩ initOrchState).2 (Or.inl rfl)
    simpa using this

/-! ## Claim C10: the freshly constructed orchestrator -/

/-- C10: a fresh `Orchestrator` reports `current_state()` as `"done"`, not
`"starting"`; `"done"` is one of the idle states, so a new run is admissible
and `reset()` succeeds immediately, moving the state to `Starting`. -/
theorem fresh_orchestrator_reports_done (cfg : Config) :
    current_state initOrchState = "done" ∧
    current_state initOrchState ≠ "starting" ∧
    (reset cfg initOrchState).2 = .ok () ∧
    (reset cfg initOrchState).1.state = .starting := by
  refine ⟨rfl, by decide, ?_, ?_⟩ <;>
    · unfold reset
      rw [if_pos (by exact Or.inl rfl)]

/-! ## Claim C4: oversized documents abort the run with a naming message -/

theorem strContains_of_mem_joinComma (a : String) (l : List String) (h : a ∈ l) :
    strContains (joinComma l) a := by
  induction l with
  | nil => cases h
  | cons x xs ih =>
      rcases List.mem_cons.mp h with rfl | hx
      · cases xs with
        | nil => exact List.infix_rfl
        | cons y ys =>
            show strContains (a ++ ", " ++ joinComma (y :: ys)) a
            unfold strContains
            rw [String.data_append, String.data_append]
            have h' : a.data <+: a.data ++ ", ".data ++ (joinComma (y :: ys)).data := by
              rw [List.append_assoc]
              exact List.prefix_append ..
            exact h'.isInfix
      · cases xs with
        | nil => cases hx
        | cons y ys =>
            show strContains (x ++ ", " ++ joinComma (y :: ys)) a
            unfold strContains
            rw [String.data_append]
            exact (ih hx).trans
              (List.suffix_append ((x ++ ", ").data) ((joinComma (y :: ys)).data)).isInfix

theorem strContains_format_oversized (p : String) (l : List String) (h : p ∈ l) :
    strContains (format_oversized_error l) (pathName p) := by
  unfold format_oversized_error strContains
  rw [String.data_append, String.data_append]
  exact (strContains_of_mem_joinComma _ _ (List.mem_map_of_mem pathName h)).trans
    (List.infix_append ..)

/-- C4: when `run` reaches the size validation and the document store reports
a non-empty oversized list, `run` records a message naming each offending
file, transitions to `Error`, raises that message as a `ValueError`, and
never calls the extractor. -/
theorem run_oversized_error (cfg : Config) (env : Env) (st0 : OrchState)
    (d1 l : List String)
    (h1 : env.docs1 = .ok d1)
    (h2 : cfg.compressorAvailable = true →
      (∃ c, env.compress = .ok c) ∧ (∃ d2, env.docs2 = .ok d2))
    (h3 : env.oversized = .ok l) (h4 : l ≠ []) :
    (run cfg env st0).res = .error (.valueError (format_oversized_error l)) ∧
    (run cfg env st0).st.state = .error ∧
    (run cfg env st0).st.errorMessage = some (format_oversized_error l) ∧
    (∀ p ∈ l, strContains (format_oversized_error l) (pathName p)) ∧
    Event.extractE ∉ (run cfg env st0).trace := by
  have hpost : ∀ st docs tr, Event.extractE ∉ tr →
      (runPost cfg env st docs tr).res = .error (.valueError (format_oversized_error l)) ∧
      (runPost cfg env st docs tr).st.state = .error ∧
      (runPost cfg env st docs tr).st.errorMessage = some (format_oversized_error l) ∧
      Event.extractE ∉ (runPost cfg env st docs tr).trace := by
    intro st docs tr htr
    unfold runPost
    rw [h3]
    dsimp only
    rw [if_neg (by simpa using h4)]
    exact ⟨rfl, rfl, rfl, htr⟩
  have main : (run cfg env st0).res = .error (.valueError (format_oversized_error l)) ∧
      (run cfg env st0).st.state = .error ∧
      (run cfg env st0).st.errorMessage = some (format_oversized_error l) ∧
      Event.extractE ∉ (run cfg env st0).trace := by
    unfold run
    rw [h1]
    dsimp only
    by_cases hc : cfg.compressorAvailable
    · rw [if_pos hc]
      obtain ⟨⟨c, hcc⟩, ⟨d2, hd2⟩⟩ := h2 hc
      rw [hcc]
      dsimp only
      rw [hd2]
      exact hpost _ _ _ (by simp)
    · rw [if_neg hc]
      exact hpost _ _ _ (by simp)
  exact ⟨main.1, main.2.1, main.2.2.1,
    fun p hp => strContains_format_oversized p l hp, main.2.2.2⟩

/-- C4 (witness): a single 6 MB `a.pdf` over the ceiling: the run errors and
the message names `a.pdf`. -/
theorem run_oversized_error_witness :
    (run ⟨false, true, false, false⟩
        { docs1 := .ok ["/data/a.pdf"], compress := .ok [], docs2 := .ok [],
          oversized := .ok ["/data/a.pdf"], storeReset := .ok (),
          extractOutcome := .ok [], extractProgressAtFailure := [],
          populateOutcome := .ok (), populateCompleted := [],
          graphOutcome := .ok ⟨0⟩, cancel1 := false, cancel2 := false,
          cancel3 := false }
        initOrchState).st.state = .error ∧
    strContains (format_oversized_error ["/data/a.pdf"]) "a.pdf" := by
  have := run_oversized_error ⟨false, true, false, false⟩
    { docs1 := .ok ["/data/a.pdf"], compress := .ok [], docs2 := .ok [],
      oversized := .ok ["/data/a.pdf"], storeReset := .ok (),
      extractOutcome := .ok [], extractProgressAtFailure := [],
      populateOutcome := .ok (), populateCompleted := [],
      graphOutcome := .ok ⟨0⟩, cancel1 := false, cancel2 := false,
      cancel3 := false }
    initOrchState ["/data/a.pdf"] ["/data/a.pdf"] rfl (by simp) rfl (by simp)
  refine ⟨this.2.1, ?_⟩
  have := this.2.2.2.1 "/data/a.pdf" (by simp)
  simpa [pathName] using this

/-! ## Claim C3: terminal states of run -/

/-- An environment in which the document store's `get_documents` raises. -/
def envDocFetchFails : Env :=
  { docs1 := .error (.generic "disk failure"), compress := .ok [], docs2 := .ok [],
    oversized := .ok [], storeReset := .ok (), extractOutcome := .ok [],
    extractProgressAtFailure := [], populateOutcome := .ok (),
    populateCompleted := [], graphOutcome := .ok ⟨0⟩,
    cancel1 := false, cancel2 := false, cancel3 := false }

/-- C3 (counterexample): when `get_documents` raises at the top of `run`,
the exception propagates and the orchestrator is left in `Compressing` —
neither `Done` nor `Error`. -/
theorem run_docfetch_raise_leaves_compressing :
    (run ⟨false, false, false, false⟩ envDocFetchFails initOrchState).st.state =
        .compressing ∧
    (run ⟨false, false, false, false⟩ envDocFetchFails initOrchState).res =
        .error (.generic "disk failure") ∧
    ¬ ((run ⟨false, false, false, false⟩ envDocFetchFails initOrchState).st.state = .done ∨
       (run ⟨false, false, false, false⟩ envDocFetchFails initOrchState).st.state = .error) := by
  refine ⟨rfl, rfl, ?_⟩
  decide

/-- C3 (amended): provided no exception escapes the unguarded pre-extraction
calls (document fetches, oversized query, concept-store reset), every
termination of `run` — normal return, cancellation, or exception — leaves the
state `Done` unless it is `Error`. -/
theorem run_terminates_done_or_error (cfg : Config) (env : Env) (st0 : OrchState)
    (h : uncaughtPreRaise cfg env = false) :
    (run cfg env st0).st.state = .done ∨ (run cfg env st0).st.state = .error := by
  have post : ∀ (st : OrchState) (docs : List String) (tr : List Event),
      uncaughtPostRaise cfg env = false →
      (runPost cfg env st docs tr).st.state = .done ∨
        (runPost cfg env st docs tr).st.state = .error := by
    intro st docs tr hp
    unfold uncaughtPostRaise at hp
    unfold runPost
    cases h4 : env.oversized with
    | error e => rw [h4] at hp; simp at hp
    | ok l =>
        rw [h4] at hp
        dsimp only at hp ⊢
        by_cases h5 : l.isEmpty
        · rw [if_pos h5]
          by_cases h6 : cfg.storePresent
          · rw [if_pos h6]
            cases h7 : env.storeReset with
            | error e => rw [h7] at hp; simp [h5, h6] at hp
            | ok u => exact runTry_state ..
          · rw [if_neg h6]
            exact runTry_state ..
        · rw [if_neg h5]
          exact Or.inr rfl
  unfold uncaughtPreRaise at h
  unfold run
  cases h1 : env.docs1 with
  | error e => rw [h1] at h; simp at h
  | ok d1 =>
      rw [h1] at h
      dsimp only at h ⊢
      by_cases hc : cfg.compressorAvailable
      · rw [if_pos hc] at h ⊢
        cases h2 : env.compress with
        | error e => exact Or.inr rfl
        | ok c =>
            rw [h2] at h
            dsimp only at h ⊢
            cases h3 : env.docs2 with
            | error e => rw [h3] at h; simp at h
            | ok d2 =>
                rw [h3] at h
                exact post _ _ _ h
      · rw [if_neg hc] at h ⊢
        exact post _ _ _ h

/-- C3 (witness): a fully successful environment ends the run in a terminal
state. -/
theorem run_terminates_done_or_error_witness :
    (run ⟨true, true, true, true⟩
        { docs1 := .ok ["d"], compress := .ok ["d"], docs2 := .ok ["d"],
          oversized := .ok [], storeReset := .ok (),
          extractOutcome := .ok [("d", ["K"])], extractProgressAtFailure := [],
          populateOutcome := .ok (), populateCompleted := ["K"],
          graphOutcome := .ok ⟨1⟩, cancel1 := false, cancel2 := false,
          cancel3 := false }
        initOrchState).st.state = .done ∨
    (run ⟨true, true, true, true⟩
        { docs1 := .ok ["d"], compress := .ok ["d"], docs2 := .ok ["d"],
          oversized := .ok [], storeReset := .ok (),
          extractOutcome := .ok [("d", ["K"])], extractProgressAtFailure := [],
          populateOutcome := .ok (), populateCompleted := ["K"],
          graphOutcome := .ok ⟨1⟩, cancel1 := false, cancel2 := false,
          cancel3 := false }
        initOrchState).st.state = .error :=
  run_terminates_done_or_error ⟨true, true, true, true⟩
    { docs1 := .ok ["d"], compress := .ok ["d"], docs2 := .ok ["d"],
      oversized := .ok [], storeReset := .ok (),
      extractOutcome := .ok [("d", ["K"])], extractProgressAtFailure := [],
      populateOutcome := .ok (), populateCompleted := ["K"],
      graphOutcome := .ok ⟨1⟩, cancel1 := false, cancel2 := false,
      cancel3 := false }
    initOrchState (by decide)

/-! ## Claim C6: cancellation observed right after extraction -/

/-- C6: when the cancellation flag is observed set at the check point right
after extraction, `run` returns the empty mapping, `last_concepts` is the
extractor's progress snapshot (the map extraction just produced), population
and graphing are never called, and the run still settles in `Done`. -/
theorem run_cancel_after_extract (cfg : Config) (env : Env) (st0 : OrchState)
    (docs : List String) (m : ConceptMap)
    (hpre : preDocs cfg env = some docs)
    (hm : env.extractOutcome = .ok m)
    (hc : env.cancel1 = true) :
    (run cfg env st0).res = .ok [] ∧
    (run cfg env st0).st.lastConcepts = m ∧
    (run cfg env st0).st.extractorProgress = m ∧
    (run cfg env st0).st.state = .done ∧
    Event.populateE ∉ (run cfg env st0).trace ∧
    Event.graphE ∉ (run cfg env st0).trace := by
  rw [run_eq_of_preDocs cfg env st0 docs hpre]
  unfold runTry
  rw [hm]
  dsimp only
  rw [if_pos hc]
  unfold runFinally mkTrySt
  rw [if_neg (by simp)]
  refine ⟨rfl, rfl, rfl, rfl, ?_, ?_⟩ <;>
    · unfold preTrace
      cases cfg.compressorAvailable <;> cases cfg.storePresent <;> simp

/-- C6 (witness): a concrete cancelled-after-extraction run. -/
theorem run_cancel_after_extract_witness :
    (run ⟨false, true, true, false⟩
        { docs1 := .ok ["d"], compress := .ok [], docs2 := .ok [],
          oversized := .ok [], storeReset := .ok (),
          extractOutcome := .ok [("d", ["K"])], extractProgressAtFailure := [],
          populateOutcome := .ok (), populateCompleted := [],
          graphOutcome := .ok ⟨1⟩, cancel1 := true, cancel2 := true,
          cancel3 := true }
        initOrchState).res = .ok [] ∧
    (run ⟨false, true, true, false⟩
        { docs1 := .ok ["d"], compress := .ok [], docs2 := .ok [],
          oversized := .ok [], storeReset := .ok (),
          extractOutcome := .ok [("d", ["K"])], extractProgressAtFailure := [],
          populateOutcome := .ok (), populateCompleted := [],
          graphOutcome := .ok ⟨1⟩, cancel1 := true, cancel2 := true,
          cancel3 := true }
        initOrchState).st.lastConcepts = [("d", ["K"])] := by
  have := run_cancel_after_extract ⟨false, true, true, false⟩
    { docs1 := .ok ["d"], compress := .ok [], docs2 := .ok [],
      oversized := .ok [], storeReset := .ok (),
      extractOutcome := .ok [("d", ["K"])], extractProgressAtFailure := [],
      populateOutcome := .ok (), populateCompleted := [],
      graphOutcome := .ok ⟨1⟩, cancel1 := true, cancel2 := true,
      cancel3 := true }
    initOrchState ["d"] [("d", ["K"])] rfl rfl rfl
  exact ⟨this.1, this.2.1⟩

/-! ## Claim C2: throttling during the guarded stages degrades to Done -/

theorem ne_empty_of_strContains (s pat : String) (h : strContains s pat)
    (hp : pat ≠ "") : s ≠ "" := by
  intro hc
  subst hc
  unfold strContains at h
  apply hp
  apply String.ext
  simpa using h

theorem throttling_str_ne_empty (e : ExcP) (h : is_throttling_error e = true) :
    e.str ≠ "" := by
  cases e with
  | clientError code msg =>
      intro hc
      have hlen := congrArg String.length hc
      simp only [ExcP.str, String.length_append] at hlen
      have h19 : ("An error occurred (" : String).length = 19 := by decide
      have h0 : ("" : String).length = 0 := rfl
      rw [h19, h0] at hlen
      omega
  | valueError msg =>
      simp only [is_throttling_error, ExcP.str, Bool.or_eq_true,
        decide_eq_true_eq] at h ⊢
      rcases h with ((h | h) | h) | h <;>
        exact ne_empty_of_strContains _ _ h (by decide)
  | runtimeError msg =>
      simp only [is_throttling_error, ExcP.str, Bool.or_eq_true,
        decide_eq_true_eq] at h ⊢
      rcases h with ((h | h) | h) | h <;>
        exact ne_empty_of_strContains _ _ h (by decide)
  | generic msg =>
      simp only [is_throttling_error, ExcP.str, Bool.or_eq_true,
        decide_eq_true_eq] at h ⊢
      rcases h with ((h | h) | h) | h <;>
        exact ne_empty_of_strContains _ _ h (by decide)

theorem runExcept_throttle (st : OrchState) (e : ExcP) (tr : List Event)
    (ht : is_throttling_error e = true) (hs : st.state ≠ .error) :
    (runExcept st e tr).res = .ok ((runExcept st e tr).st.extractorProgress) ∧
    (runExcept st e tr).st.lastConcepts = (runExcept st e tr).st.extractorProgress ∧
    (runExcept st e tr).st.state = .done ∧
    ∃ msg, (runExcept st e tr).st.errorMessage = some msg ∧ msg ≠ "" := by
  unfold runExcept
  rw [if_pos ht]
  unfold runFinally
  rw [if_neg (by simpa using hs)]
  exact ⟨rfl, rfl, rfl, e.str, rfl, throttling_str_ne_empty e ht⟩

theorem run_throttling_settles_done (cfg : Config) (env : Env) (st0 : OrchState)
    (docs : List String) (e : ExcP)
    (hpre : preDocs cfg env = some docs)
    (hr : RaisesInTry cfg env docs e)
    (ht : is_throttling_error e = true) :
    (run cfg env st0).res = .ok ((run cfg env st0).st.extractorProgress) ∧
    (run cfg env st0).st.lastConcepts = (run cfg env st0).st.extractorProgress ∧
    (run cfg env st0).st.state = .done ∧
    ∃ msg, (run cfg env st0).st.errorMessage = some msg ∧ msg ≠ "" := by
  rw [run_eq_of_preDocs cfg env st0 docs hpre]
  unfold runTry
  rcases hr with hext | ⟨m, hm, hc1, hrest⟩
  · rw [hext]
    dsimp only
    exact runExcept_throttle _ e _ ht (by simp [mkTrySt])
  · rw [hm]
    dsimp only
    rw [hc1]
    rw [if_neg (by simp)]
    rcases hrest with ⟨hb, hperr⟩ | ⟨hpop, hg, hgerr⟩
    · rw [if_pos hb, hperr]
      dsimp only
      exact runExcept_throttle _ e _ ht (by simp)
    · have graphCase : ∀ (stG : OrchState), stG.state ≠ .error →
          ∀ tr, ((runGraph cfg env stG m tr).res =
              .ok ((runGraph cfg env stG m tr).st.extractorProgress) ∧
            (runGraph cfg env stG m tr).st.lastConcepts =
              (runGraph cfg env stG m tr).st.extractorProgress ∧
            (runGraph cfg env stG m tr).st.state = .done ∧
            ∃ msg, (runGraph cfg env stG m tr).st.errorMessage = some msg ∧
              msg ≠ "") := by
        intro stG hsG tr
        unfold runGraph
        rw [hg]
        dsimp only
        rw [hgerr]
        exact runExcept_throttle _ e _ ht (by simp)
      by_cases hb : popCondB cfg docs m = true
      · rw [if_pos hb]
        obtain ⟨hpo, hc2⟩ := hpop hb
        rw [hpo]
        dsimp only
        rw [hc2]
        rw [if_neg (by simp)]
        exact graphCase _ (by simp) _
      · rw [if_neg hb]
        exact graphCase _ (by simp [mkTrySt]) _

/-- Environment for the C2 witness: population raises a rate-limit error. -/
def envThrottle : Env :=
  { docs1 := .ok ["d"], compress := .ok [], docs2 := .ok [],
    oversized := .ok [], storeReset := .ok (),
    extractOutcome := .ok [("d", ["K"])], extractProgressAtFailure := [],
    populateOutcome := .error (.generic "Rate exceeded"), populateCompleted := [],
    graphOutcome := .ok ⟨0⟩, cancel1 := false, cancel2 := false, cancel3 := false }

/-- C2 (witness): a simulated throttling failure during population. -/
theorem run_throttling_settles_done_witness :
    (run ⟨false, true, false, false⟩ envThrottle initOrchState).res =
      .ok ((run ⟨false, true, false, false⟩ envThrottle initOrchState).st.extractorProgress) ∧
    (run ⟨false, true, false, false⟩ envThrottle initOrchState).st.lastConcepts =
      (run ⟨false, true, false, false⟩ envThrottle initOrchState).st.extractorProgress ∧
    (run ⟨false, true, false, false⟩ envThrottle initOrchState).st.state = .done ∧
    ∃ msg, (run ⟨false, true, false, false⟩ envThrottle
      initOrchState).st.errorMessage = some msg ∧ msg ≠ "" :=
  run_throttling_settles_done ⟨false, true, false, false⟩ envThrottle initOrchState
    ["d"] (.generic "Rate exceeded") rfl
    (Or.inr ⟨[("d", ["K"])], rfl, rfl, Or.inl ⟨by decide, rfl⟩⟩)
    (by decide)

/-! ## Claim C7: extract covers the input key set -/

/-- C7 (counterexample): with exactly one document whose extraction task
fails, `extract` runs inline with no exception handler (lines 64-68): the
failure propagates instead of being recorded as an empty keyword list, and no
mapping is returned. -/
theorem extract_single_failure_raises :
    (extract (fun _ => .error (.generic "boom")) ["a"] [] ["a"]).2 =
      .error (.generic "boom") ∧
    ∀ m : ConceptMap,
      (extract (fun _ => .error (.generic "boom")) ["a"] [] ["a"]).2 ≠ .ok m := by
  refine ⟨rfl, ?_⟩
  intro m h
  rw [show (extract (fun _ => .error (.generic "boom")) ["a"] [] ["a"]).2 =
    .error (.generic "boom") from rfl] at h
  exact Except.noConfusion h

/-- C7 (amended): for document lists of length 0 and of length above 1,
`extract` returns a mapping whose key set equals the input document set with
no duplicate keys, per-task failures included (they are recorded as empty
lists); for exactly one document the same holds provided that document's task
succeeds — a failing single task propagates out of the inline path instead. -/
theorem extract_key_set (outcome : String → Except ExcP (List String))
    (order : List String) (prog : ConceptMap) (paths : List String)
    (hperm : order.Perm paths)
    (h1 : ∀ d, paths = [d] → ∃ ks, outcome d = .ok ks) :
    ∃ m, (extract outcome order prog paths).2 = .ok m ∧
      (keysOf m).Nodup ∧ ∀ d, (d ∈ keysOf m ↔ d ∈ paths) := by
  cases paths with
  | nil => exact ⟨[], rfl, by simp [keysOf], by simp [keysOf]⟩
  | cons a rest =>
      cases rest with
      | nil =>
          obtain ⟨ks, hks⟩ := h1 a rfl
          refine ⟨dictInsert [] a ks, ?_, ?_, ?_⟩
          · show (match outcome a with
              | .ok ks => (dictInsert [] a ks, Except.ok (dictInsert [] a ks))
              | .error e => ([], Except.error e)).2 = .ok (dictInsert [] a ks)
            rw [hks]
          · simp [dictInsert, keysOf]
          · simp [dictInsert, keysOf]
      | cons b rest2 =>
          refine ⟨(order.foldl (extractStep outcome) []), rfl, ?_, ?_⟩
          · exact nodup_keysOf_foldl_extractStep outcome order [] (by simp [keysOf])
          · intro d
            rw [mem_keysOf_foldl_extractStep, hperm.mem_iff]
            simp [keysOf]

/-- C7 (witness): two documents collected in reverse completion order. -/
theorem extract_key_set_witness :
    ∃ m, (extract (fun d => .ok [d]) ["b", "a"] [] ["a", "b"]).2 = .ok m ∧
      (keysOf m).Nodup ∧ ∀ d, (d ∈ keysOf m ↔ d ∈ ["a", "b"]) :=
  extract_key_set (fun d => .ok [d]) ["b", "a"] [] ["a", "b"]
    (by decide) (by intro d h; simp at h)

/-! ## Claim C8: extract and the progress accumulator -/

/-- C8 (counterexample): `extract` with zero documents returns before
clearing the accumulator (lines 58-62), so a left-over entry from an earlier
call survives in `progress()` even though its document is not part of this
call. -/
theorem extract_empty_skips_clear :
    (extract (fun _ => .ok []) [] [("a", ["k"])] []).1 = [("a", ["k"])] ∧
    ¬ ∀ d ∈ keysOf (extract (fun _ => .ok []) [] [("a", ["k"])] []).1,
        d ∈ ([] : List String) := by
  refine ⟨rfl, ?_⟩
  intro hall
  have := hall "a" (by simp [keysOf, extract])
  exact List.not_mem_nil _ this

/-- C8 (amended): every `extract` call with a non-empty document list clears
the previous progress first, so a `progress()` read taken right after it
returns only holds entries for documents of that call; a zero-document call
returns without clearing and may leave earlier entries in place. -/
theorem extract_progress_keys (outcome : String → Except ExcP (List String))
    (order : List String) (prog : ConceptMap) (paths : List String)
    (hne : paths ≠ []) (hperm : order.Perm paths) :
    ∀ d ∈ keysOf (extract outcome order prog paths).1, d ∈ paths := by
  cases paths with
  | nil => exact absurd rfl hne
  | cons a rest =>
      cases rest with
      | nil =>
          intro d hd
          cases hks : outcome a with
          | ok ks =>
              rw [show (extract outcome order prog [a]).1 = dictInsert [] a ks by
                show (match outcome a with
                  | .ok ks => (dictInsert [] a ks, Except.ok (dictInsert [] a ks))
                  | .error e => ([], Except.error e)).1 = dictInsert [] a ks
                rw [hks]] at hd
              simp only [dictInsert, keysOf] at hd
              simpa [keysOf] using hd
          | error e =>
              rw [show (extract outcome order prog [a]).1 = [] by
                show (match outcome a with
                  | .ok ks => (dictInsert [] a ks, Except.ok (dictInsert [] a ks))
                  | .error e => ([], Except.error e)).1 = []
                rw [hks]] at hd
              simp [keysOf] at hd
      | cons b rest2 =>
          intro d hd
          have := (mem_keysOf_foldl_extractStep outcome order [] d).mp hd
          rcases this with h | h
          · simp [keysOf] at h
          · exact hperm.mem_iff.mp h

/-- C8 (witness): a single-document call over stale progress leaves only that
document's entry, which the amended theorem places among the call's inputs. -/
theorem extract_progress_keys_witness :
    keysOf (extract (fun _ => .ok ["k"]) ["a"] [("z", ["old"])] ["a"]).1 = ["a"] ∧
    "a" ∈ (["a"] : List String) :=
  ⟨by decide,
   extract_progress_keys (fun _ => .ok ["k"]) ["a"] [("z", ["old"])] ["a"]
     (by simp) (by decide) "a" (by decide)⟩

/-! ## Claim C9: parser invariants on keyword lists -/

/-- C9: every keyword list the reply parser produces has at most 10 entries,
no duplicates, only entries that are non-empty after stripping, and preserves
the first-seen order of the (stripped) reply items. -/
theorem parse_keywords_invariants (payload : JsonValue) (ks : List String)
    (h : parse_keywords payload = .ok ks) :
    ks.length ≤ 10 ∧ ks.Nodup ∧ (∀ k ∈ ks, k ≠ "") ∧
    ∃ items, pyIter (keywordsPayload payload) = .ok items ∧
      ks.Sublist (items.map (fun x => pyStrip (pyStr x))) := by
  unfold parse_keywords at h
  cases hi : pyIter (keywordsPayload payload) with
  | error e =>
      rw [hi] at h
      exact Except.noConfusion h
  | ok items =>
      rw [hi] at h
      have h' : (Except.ok ((processKeywords items []).take 10) :
          Except ExcP (List String)) = Except.ok ks := h
      have hks : (processKeywords items []).take 10 = ks := Except.ok.inj h'
      obtain ⟨hnd, hne, extra, heq, hsub⟩ :=
        processKeywords_props items [] (by simp) (by simp)
      subst hks
      refine ⟨?_, ?_, ?_, items, rfl, ?_⟩
      · simp only [List.length_take]
        exact min_le_left 10 (processKeywords items []).length
      · exact (List.take_sublist 10 _).nodup hnd
      · intro k hk
        exact hne k (List.take_subset 10 _ hk)
      · refine (List.take_sublist 10 _).trans ?_
        rw [heq]
        simpa using hsub

/-- C9 (witness): a reply payload with padding, a duplicate and an empty
entry parses to the two clean keywords. -/
theorem parse_keywords_invariants_witness :
    (["A", "B"] : List String).length ≤ 10 ∧ (["A", "B"] : List String).Nodup ∧
    (∀ k ∈ (["A", "B"] : List String), k ≠ "") ∧
    ∃ items, pyIter (keywordsPayload (.obj [("keywords",
        .arr [.str " A ", .str "A", .str "B", .str ""])])) = .ok items ∧
      (["A", "B"] : List String).Sublist
        (items.map (fun x => pyStrip (pyStr x))) :=
  parse_keywords_invariants
    (.obj [("keywords", .arr [.str " A ", .str "A", .str "B", .str ""])])
    ["A", "B"] rfl

end SecondBrain
